import Mathlib

/-!
Verification of the Sidewars per-tick simulation engine (src/main.rs).

The embedding below translates the game's data model and the five systems the
claims are about — `collision_system`, `fighting_system`, `figter_siege`,
`soldier_placement_system`, `timeout_system` — into executable Lean
definitions.  Entities are natural-number identifiers; the ECS stores are
functions from identifiers to components; `f32` quantities are modelled as
exact rationals and `u8`/`i16` quantities as `Nat`/`Int` (saturating `u8`
subtraction becomes truncated `Nat` subtraction, which is exactly the same
operation for values below 256).  Bevy `Commands` (deferred entity
spawn/despawn) are modelled as explicit pending lists that do not affect the
store until the system ends, mirroring how bevy applies commands after the
system has run.
-/

namespace Sidewars

/-- Skill template, from `struct Skills` in main.rs. -/
structure Skills where
  price : Nat
  attack : Nat
  defence : Nat
  strength : Nat
  hp : Nat
  speed : Nat
  siege : Nat
  deriving DecidableEq, Repr

/-- The `Skills::PRIVATE` preset. -/
def Skills.PRIVATE : Skills :=
  { price := 2, attack := 15, defence := 15, hp := 20, strength := 5, speed := 30, siege := 5 }

/-- The `Skills::FIGHTER` preset. -/
def Skills.FIGHTER : Skills :=
  { price := 3, attack := 30, defence := 5, hp := 15, strength := 10, speed := 35, siege := 7 }

/-- The `Skills::SHIELDSMAN` preset. -/
def Skills.SHIELDSMAN : Skills :=
  { price := 3, attack := 5, defence := 30, hp := 30, strength := 5, speed := 20, siege := 1 }

/-- Mutable fighter component, from `struct Fighter` in main.rs.  `fighting`
holds the opponent's entity id (a weak reference). -/
structure Fighter where
  skills : Skills
  hp : Nat
  protection : Nat
  fighting : Option Nat
  attack_cooldown : ℚ
  waiting : Bool
  deriving DecidableEq, Repr

/-- Constructor `Fighter::new`. -/
def Fighter.new (skills : Skills) : Fighter :=
  { hp := skills.hp, protection := 0, skills := skills, fighting := none,
    attack_cooldown := 0, waiting := false }

/-- Predicate `Fighter::moving`. -/
def Fighter.moving (f : Fighter) : Bool :=
  !f.waiting && f.fighting.isNone

/-- Static spatial data of an entity as read by the systems: the transform's
translation (x, y), the sign-carrying `transform.scale.x` (positive for the
left player's fighters, negative for the right side's flipped sprites), and
the sprite's `custom_size` (32×32 for fighters). -/
structure Geo where
  pos : ℚ × ℚ
  scaleX : ℚ
  size : ℚ × ℚ
  deriving DecidableEq, Repr

/-- Side classification returned by bevy 0.10's `sprite::collide_aabb`. -/
inductive Collision
  | Left
  | Right
  | Top
  | Bottom
  | Inside
  deriving DecidableEq, Repr

/-- Overlap test of `collide` (bevy 0.10 `collide_aabb.rs`):
`a_min.x < b_max.x && a_max.x > b_min.x && a_min.y < b_max.y && a_max.y > b_min.y`. -/
def overlapTest (aPos aSize bPos bSize : ℚ × ℚ) : Prop :=
  aPos.1 - aSize.1 / 2 < bPos.1 + bSize.1 / 2 ∧
  aPos.1 + aSize.1 / 2 > bPos.1 - bSize.1 / 2 ∧
  aPos.2 - aSize.2 / 2 < bPos.2 + bSize.2 / 2 ∧
  aPos.2 + aSize.2 / 2 > bPos.2 - bSize.2 / 2

instance (aPos aSize bPos bSize : ℚ × ℚ) : Decidable (overlapTest aPos aSize bPos bSize) := by
  unfold overlapTest; infer_instance

/-- Side-selection logic of bevy 0.10's `collide`, evaluated only when the
boxes overlap: an x-side and a y-side candidate are computed together with
penetration depths, and the shallower penetration wins (x wins ties); when
neither axis gives a side, the result is `Inside`. -/
def collideSide (aPos aSize bPos bSize : ℚ × ℚ) : Collision :=
  let aMinX := aPos.1 - aSize.1 / 2
  let aMaxX := aPos.1 + aSize.1 / 2
  let aMinY := aPos.2 - aSize.2 / 2
  let aMaxY := aPos.2 + aSize.2 / 2
  let bMinX := bPos.1 - bSize.1 / 2
  let bMaxX := bPos.1 + bSize.1 / 2
  let bMinY := bPos.2 - bSize.2 / 2
  let bMaxY := bPos.2 + bSize.2 / 2
  let xc : Option (Collision × ℚ) :=
    if aMinX < bMinX ∧ aMaxX > bMinX ∧ aMaxX < bMaxX then some (Collision.Left, bMinX - aMaxX)
    else if aMinX > bMinX ∧ aMinX < bMaxX ∧ aMaxX > bMaxX then some (Collision.Right, aMinX - bMaxX)
    else none
  let yc : Option (Collision × ℚ) :=
    if aMinY < bMinY ∧ aMaxY > bMinY ∧ aMaxY < bMaxY then some (Collision.Bottom, bMinY - aMaxY)
    else if aMinY > bMinY ∧ aMinY < bMaxY ∧ aMaxY > bMaxY then some (Collision.Top, aMinY - bMaxY)
    else none
  match xc, yc with
  | some (x, xd), some (y, yd) => if |yd| < |xd| then y else x
  | some (x, _), none => x
  | none, some (y, _) => y
  | none, none => Collision.Inside

/-- Bevy 0.10 `sprite::collide_aabb::collide`, as called by `collision_system`
with each fighter's translation and 32×32 sprite size. -/
def collide (aPos aSize bPos bSize : ℚ × ℚ) : Option Collision :=
  if overlapTest aPos aSize bPos bSize then some (collideSide aPos aSize bPos bSize) else none

/-- Pointwise update of a function-modelled store. -/
def upd {α : Type} (f : Nat → α) (i : Nat) (v : α) : Nat → α :=
  fun x => if x = i then v else f x

theorem upd_same {α : Type} (f : Nat → α) (i : Nat) (v : α) : upd f i v i = v := by
  simp [upd]

theorem upd_ne {α : Type} (f : Nat → α) (i : Nat) (v : α) (x : Nat) (h : x ≠ i) :
    upd f i v x = f x := by
  simp [upd, h]

/-! ### Collision / Engagement Resolver (`collision_system`)

`collision_system` gathers every `(Entity, &mut Fighter, &Transform, &Sprite)`
tuple into a vector and calls `compare_self_mut`, which visits each index pair
`(i, j)` with `i < j` in order.  Mutations to `Fighter` components happen
inline; a `HashMap<Entity, bool>` collects deferred `waiting` re-evaluations,
applied after the scan.  Geometry (transforms, sprite sizes) is read-only
during the scan, so it is passed separately as `geo`. -/

/-- Scan state of `collision_system`: the mutable fighter components and the
`waiting: HashMap<Entity, bool>` (modelled as a partial map). -/
structure ScanState where
  f : Nat → Fighter
  m : Nat → Option Bool

/-- The `collide(...)` call for one visited pair, with the pair's first
component playing the `left_*` role. -/
def pairCollide (geo : Nat → Geo) (p : Nat × Nat) : Option Collision :=
  collide (geo p.1).pos (geo p.1).size (geo p.2).pos (geo p.2).size

/-- Which entity of a same-facing overlapping pair is marked `waiting`.  The
source swaps the pair so that `left` is the pair's first element when
`left_trans.scale.x > 0.` and the second element otherwise, then marks `left`
on `Collision::Left | Top` and `right` on `Right | Bottom | Inside`. -/
def rearOf (geo : Nat → Geo) (p : Nat × Nat) (c : Collision) : Nat :=
  match c with
  | Collision.Left | Collision.Top => if (geo p.1).scaleX > 0 then p.1 else p.2
  | _ => if (geo p.1).scaleX > 0 then p.2 else p.1

/-- An `entry(ent).or_insert(false)` guarded by the fighter's current
`waiting` flag, as done by `collision_system` for a non-overlapping pair. -/
def orInsertFalse (w : Bool) (m : Nat → Option Bool) (i : Nat) : Nat → Option Bool :=
  if w = true ∧ m i = none then upd m i (some false) else m

/-- One iteration of the `compare_self_mut` closure on the visited pair `p`. -/
def pairStep (geo : Nat → Geo) (st : ScanState) (p : Nat × Nat) : ScanState :=
  match pairCollide geo p with
  | some c =>
    if (geo p.1).scaleX = (geo p.2).scaleX then
      let r := rearOf geo p c
      { f := upd st.f r { st.f r with waiting := true }, m := upd st.m r (some true) }
    else
      { st with
        f := upd (upd st.f p.1 { st.f p.1 with fighting := some p.2 })
               p.2 { st.f p.2 with fighting := some p.1 } }
  | none =>
    { st with
      m := orInsertFalse (st.f p.2).waiting
             (orInsertFalse (st.f p.1).waiting st.m p.1) p.2 }

/-- Post-scan pass: every map entry that stayed `false` has its entity's
`waiting` flag cleared (`waiting.into_iter().filter(|(_, v)| !v)`). -/
def applyWaiting (st : ScanState) : Nat → Fighter :=
  fun e =>
    match st.m e with
    | some false => { st.f e with waiting := false }
    | _ => st.f e

/-- Run the pairwise scan over an explicit pair list and apply the deferred
`waiting` clears. -/
def runCollision (geo : Nat → Geo) (ps : List (Nat × Nat)) (f0 : Nat → Fighter) :
    Nat → Fighter :=
  applyWaiting (ps.foldl (pairStep geo) { f := f0, m := fun _ => none })

/-- The pair-visitation order of `compare_self_mut`: all pairs `(i, j)` with
`i` before `j` in the entity list, first component first. -/
def selfPairs : List Nat → List (Nat × Nat)
  | [] => []
  | x :: xs => (xs.map fun y => (x, y)) ++ selfPairs xs

/-- The whole `collision_system` over the fighters listed in `ids`. -/
def collision_system (geo : Nat → Geo) (ids : List Nat) (f0 : Nat → Fighter) :
    Nat → Fighter :=
  runCollision geo (selfPairs ids) f0

/-! ### Characterisation of the scan

Predicates over the pair list that pin down the final `waiting` map and
`fighting` links. -/

/-- Pair `p` marks entity `e` as the rearward one of a same-facing overlap. -/
def marksE (geo : Nat → Geo) (p : Nat × Nat) (e : Nat) : Bool :=
  match pairCollide geo p with
  | some c => decide ((geo p.1).scaleX = (geo p.2).scaleX) && decide (rearOf geo p c = e)
  | none => false

/-- Pair `p` involves entity `e` and its boxes do not overlap. -/
def apartWith (geo : Nat → Geo) (p : Nat × Nat) (e : Nat) : Bool :=
  (pairCollide geo p).isNone && (decide (p.1 = e) || decide (p.2 = e))

/-- Pair `p` is an engagement pair: overlapping boxes with differing
`scale.x`. -/
def oppPair (geo : Nat → Geo) (p : Nat × Nat) : Bool :=
  (pairCollide geo p).isSome && !(decide ((geo p.1).scaleX = (geo p.2).scaleX))

/-- Some pair of the list marks `e` rearward. -/
def markedIn (geo : Nat → Geo) (ps : List (Nat × Nat)) (e : Nat) : Bool :=
  ps.any fun p => marksE geo p e

/-- Some pair of the list involves `e` without overlap. -/
def apartIn (geo : Nat → Geo) (ps : List (Nat × Nat)) (e : Nat) : Bool :=
  ps.any fun p => apartWith geo p e

/-- The `fighting` link of `e` after the scan processes `ps` starting from
default `d`: each engagement pair involving `e` overwrites the link. -/
def fightAfter (geo : Nat → Geo) : List (Nat × Nat) → Nat → Option Nat → Option Nat
  | [], _, d => d
  | p :: ps, e, d =>
    fightAfter geo ps e
      (if oppPair geo p then
        (if p.1 = e then some p.2 else if p.2 = e then some p.1 else d)
       else d)

theorem orInsertFalse_eval (w : Bool) (m : Nat → Option Bool) (i e : Nat) :
    orInsertFalse w m i e =
      (if e = i ∧ w = true ∧ m i = none then some false else m e) := by
  unfold orInsertFalse
  by_cases h : w = true ∧ m i = none
  · by_cases he : e = i
    · simp [upd, he, h]
    · simp [upd, he, h]
  · rw [if_neg h, if_neg (by tauto)]

theorem pairStep_waiting (geo : Nat → Geo) (st : ScanState) (p : Nat × Nat) (e : Nat) :
    ((pairStep geo st p).f e).waiting = ((st.f e).waiting || marksE geo p e) := by
  unfold pairStep marksE
  rcases hc : pairCollide geo p with _ | c
  · simp
  · by_cases hs : (geo p.1).scaleX = (geo p.2).scaleX
    · by_cases he : e = rearOf geo p c
      · simp [upd, hs, he]
      · have he2 : ¬ rearOf geo p c = e := fun h => he h.symm
        simp [upd, hs, he, he2]
    · have hne : ¬ p.1 = p.2 := fun h => hs (by rw [h])
      by_cases h1 : e = p.1
      · by_cases h2 : e = p.2
        · exact absurd (h1.symm.trans h2) hne
        · simp [upd, hs, h1, h2, hne]
      · by_cases h2 : e = p.2
        · simp [upd, hs, h1, h2, hne]
        · simp [upd, hs, h1, h2]

theorem pairStep_fighting (geo : Nat → Geo) (st : ScanState) (p : Nat × Nat) (e : Nat) :
    ((pairStep geo st p).f e).fighting =
      (if oppPair geo p = true then
        (if p.1 = e then some p.2 else if p.2 = e then some p.1 else (st.f e).fighting)
       else (st.f e).fighting) := by
  unfold pairStep oppPair
  rcases hc : pairCollide geo p with _ | c
  · simp
  · by_cases hs : (geo p.1).scaleX = (geo p.2).scaleX
    · by_cases he : e = rearOf geo p c
      · simp [upd, hs, he]
      · have he2 : ¬ rearOf geo p c = e := fun h => he h.symm
        simp [upd, hs, he, he2]
    · have hne : ¬ p.1 = p.2 := fun h => hs (by rw [h])
      by_cases h1 : e = p.1
      · by_cases h2 : e = p.2
        · exact absurd (h1.symm.trans h2) hne
        · have h2r : ¬ p.2 = e := fun h => h2 h.symm
          simp [upd, hs, h1, h2, hne, h2r]
      · by_cases h2 : e = p.2
        · have h1r : ¬ p.1 = e := fun h => h1 h.symm
          simp [upd, hs, h1, h2, h1r, hne]
        · have h1r : ¬ p.1 = e := fun h => h1 h.symm
          have h2r : ¬ p.2 = e := fun h => h2 h.symm
          simp [upd, hs, h1, h2, h1r, h2r]

theorem pairStep_rest (geo : Nat → Geo) (st : ScanState) (p : Nat × Nat) (e : Nat) :
    ((pairStep geo st p).f e).hp = (st.f e).hp ∧
    ((pairStep geo st p).f e).skills = (st.f e).skills ∧
    ((pairStep geo st p).f e).protection = (st.f e).protection ∧
    ((pairStep geo st p).f e).attack_cooldown = (st.f e).attack_cooldown := by
  unfold pairStep
  rcases hc : pairCollide geo p with _ | c
  · simp
  · by_cases hs : (geo p.1).scaleX = (geo p.2).scaleX
    · by_cases he : e = rearOf geo p c <;> simp [upd, hs, he]
    · have hne : ¬ p.1 = p.2 := fun h => hs (by rw [h])
      by_cases h1 : e = p.1
      · by_cases h2 : e = p.2
        · exact absurd (h1.symm.trans h2) hne
        · simp [upd, hs, h1, h2, hne]
      · by_cases h2 : e = p.2
        · simp [upd, hs, h1, h2, hne]
        · simp [upd, hs, h1, h2]

theorem pairStep_m (geo : Nat → Geo) (st : ScanState) (p : Nat × Nat) (e : Nat) :
    (pairStep geo st p).m e =
      (if marksE geo p e = true then some true
       else
        match st.m e with
        | some b => some b
        | none => if ((st.f e).waiting && apartWith geo p e) = true then some false
                  else none) := by
  unfold pairStep marksE apartWith
  rcases hc : pairCollide geo p with _ | c
  · by_cases h1 : e = p.1
    · by_cases h2 : p.2 = p.1
      · cases hw1 : (st.f p.1).waiting <;>
          rcases hm1 : st.m p.1 with _ | b <;>
            simp [orInsertFalse_eval, h1, h2, hm1, hw1]
      · have h2r : ¬ p.1 = p.2 := fun h => h2 h.symm
        cases hw1 : (st.f p.1).waiting <;>
          rcases hm1 : st.m p.1 with _ | b <;>
            simp [orInsertFalse_eval, h1, h2, h2r, hm1, hw1]
    · by_cases h2 : e = p.2
      · have h3 : ¬ p.2 = p.1 := fun h => h1 (h2.trans h)
        cases hw2 : (st.f p.2).waiting <;>
          rcases hm2 : st.m p.2 with _ | b <;>
            simp [orInsertFalse_eval, h1, h2, h3, hm2, hw2]
      · have g1 : ¬ p.1 = e := fun h => h1 h.symm
        have g2 : ¬ p.2 = e := fun h => h2 h.symm
        rcases hm : st.m e with _ | b <;>
          simp [orInsertFalse_eval, h1, h2, g1, g2, hm]
  · by_cases hs : (geo p.1).scaleX = (geo p.2).scaleX
    · by_cases he : e = rearOf geo p c
      · simp [upd, hs, he]
      · have he2 : ¬ rearOf geo p c = e := fun h => he h.symm
        rcases hm : st.m e with _ | b <;>
          simp [upd, hs, he, he2, hm]
    · rcases hm : st.m e with _ | b <;> simp [hs, hm]

theorem scan_waiting (geo : Nat → Geo) (ps : List (Nat × Nat)) (st : ScanState) (e : Nat) :
    ((ps.foldl (pairStep geo) st).f e).waiting = ((st.f e).waiting || markedIn geo ps e) := by
  induction ps generalizing st with
  | nil => simp [markedIn]
  | cons p ps ih =>
    rw [List.foldl_cons, ih, pairStep_waiting]
    simp [markedIn, Bool.or_assoc]

theorem scan_fighting (geo : Nat → Geo) (ps : List (Nat × Nat)) (st : ScanState) (e : Nat) :
    ((ps.foldl (pairStep geo) st).f e).fighting = fightAfter geo ps e ((st.f e).fighting) := by
  induction ps generalizing st with
  | nil => rfl
  | cons p ps ih =>
    rw [List.foldl_cons, ih, pairStep_fighting]
    rfl

theorem scan_rest (geo : Nat → Geo) (ps : List (Nat × Nat)) (st : ScanState) (e : Nat) :
    ((ps.foldl (pairStep geo) st).f e).hp = (st.f e).hp ∧
    ((ps.foldl (pairStep geo) st).f e).skills = (st.f e).skills ∧
    ((ps.foldl (pairStep geo) st).f e).protection = (st.f e).protection ∧
    ((ps.foldl (pairStep geo) st).f e).attack_cooldown = (st.f e).attack_cooldown := by
  induction ps generalizing st with
  | nil => exact ⟨rfl, rfl, rfl, rfl⟩
  | cons p ps ih =>
    rw [List.foldl_cons]
    obtain ⟨ihh, ihs, ihp, ihc⟩ := ih (pairStep geo st p)
    obtain ⟨sh, ss, sp, sc⟩ := pairStep_rest geo st p e
    exact ⟨ihh.trans sh, ihs.trans ss, ihp.trans sp, ihc.trans sc⟩

theorem scan_m (geo : Nat → Geo) (ps : List (Nat × Nat)) (st : ScanState) (e : Nat) :
    (ps.foldl (pairStep geo) st).m e =
      (if markedIn geo ps e = true then some true
       else
        match st.m e with
        | some b => some b
        | none => if ((st.f e).waiting && apartIn geo ps e) = true then some false
                  else none) := by
  induction ps generalizing st with
  | nil =>
    rcases hm : st.m e with _ | b <;> simp [markedIn, apartIn, hm]
  | cons p ps ih =>
    rw [List.foldl_cons, ih, pairStep_m, pairStep_waiting]
    have hm' : markedIn geo (p :: ps) e = (marksE geo p e || markedIn geo ps e) := by
      simp [markedIn]
    have ha' : apartIn geo (p :: ps) e = (apartWith geo p e || apartIn geo ps e) := by
      simp [apartIn]
    rw [hm', ha']
    cases hM : marksE geo p e
    · cases hm : st.m e with
      | none =>
        cases hw : (st.f e).waiting
        · simp
        · cases hA : apartWith geo p e <;> cases hAs : apartIn geo ps e <;>
            cases hMs : markedIn geo ps e <;> simp [hMs]
      | some b =>
        cases hMs : markedIn geo ps e <;> simp [hMs]
    · cases hMs : markedIn geo ps e <;> simp [hMs]

theorem runCollision_waiting (geo : Nat → Geo) (ps : List (Nat × Nat))
    (f0 : Nat → Fighter) (e : Nat) :
    (runCollision geo ps f0 e).waiting =
      (markedIn geo ps e || ((f0 e).waiting && !apartIn geo ps e)) := by
  unfold runCollision applyWaiting
  rw [scan_m]
  cases hM : markedIn geo ps e
  · cases hw : (f0 e).waiting
    · cases hA : apartIn geo ps e <;>
        simp [scan_waiting, hM, hw, hA]
    · cases hA : apartIn geo ps e <;>
        simp [scan_waiting, hM, hw, hA]
  · simp [scan_waiting, hM]

theorem runCollision_fighting (geo : Nat → Geo) (ps : List (Nat × Nat))
    (f0 : Nat → Fighter) (e : Nat) :
    (runCollision geo ps f0 e).fighting = fightAfter geo ps e ((f0 e).fighting) := by
  unfold runCollision applyWaiting
  rw [scan_m]
  cases hM : markedIn geo ps e
  · rcases hmm : (if ((f0 e).waiting && apartIn geo ps e) = true then some false
      else (none : Option Bool)) with _ | b
    · simp only [hmm]
      exact scan_fighting geo ps _ e
    · have : b = false := by
        by_cases h : ((f0 e).waiting && apartIn geo ps e) = true <;> simp [h] at hmm
        exact hmm
      subst this
      simp only [hmm]
      exact scan_fighting geo ps _ e
  · simp only
    exact scan_fighting geo ps _ e

/-- Three concrete fighters: entity 0 at the origin facing right
(`scale.x = 1`), entities 1 and 2 flanking it at x = −20 and x = 20, both
facing left.  Entity 0 overlaps both others (distance 20 < 32); 1 and 2 do
not overlap each other (distance 40). -/
def geoTriple : Nat → Geo := fun e =>
  if e = 0 then { pos := (0, 0), scaleX := 1, size := (32, 32) }
  else if e = 1 then { pos := (-20, 0), scaleX := -1, size := (32, 32) }
  else { pos := (20, 0), scaleX := -1, size := (32, 32) }

/-- Fresh fighters for every entity. -/
def fightersInit : Nat → Fighter := fun _ => Fighter.new Skills.PRIVATE

theorem any_of_perm {l1 l2 : List (Nat × Nat)} (h : l1.Perm l2) (f : Nat × Nat → Bool) :
    l1.any f = l2.any f := by
  cases h1 : l1.any f <;> cases h2 : l2.any f <;> try rfl
  · rw [List.any_eq_false] at h1
    rw [List.any_eq_true] at h2
    obtain ⟨x, hx, hfx⟩ := h2
    exact absurd hfx (by simpa using h1 x (h.mem_iff.mpr hx))
  · rw [List.any_eq_false] at h2
    rw [List.any_eq_true] at h1
    obtain ⟨x, hx, hfx⟩ := h1
    exact absurd hfx (by simpa using h2 x (h.mem_iff.mp hx))

theorem markedIn_of_perm (geo : Nat → Geo) {l1 l2 : List (Nat × Nat)} (h : l1.Perm l2)
    (e : Nat) : markedIn geo l1 e = markedIn geo l2 e :=
  any_of_perm h _

theorem apartIn_of_perm (geo : Nat → Geo) {l1 l2 : List (Nat × Nat)} (h : l1.Perm l2)
    (e : Nat) : apartIn geo l1 e = apartIn geo l2 e :=
  any_of_perm h _

/-- C3 (amended).  Running the pairwise scan of `collision_system` over any
permutation of the pair-visitation order produces the same final `waiting`
flag for every fighter.  (The `fighting` references are *not*
order-independent; see the counterexample.) -/
theorem collision_waiting_order_independent (geo : Nat → Geo) (ids : List Nat)
    (f0 : Nat → Fighter) (ps : List (Nat × Nat)) (h : ps.Perm (selfPairs ids)) (e : Nat) :
    (runCollision geo ps f0 e).waiting = (collision_system geo ids f0 e).waiting := by
  unfold collision_system
  rw [runCollision_waiting, runCollision_waiting,
    markedIn_of_perm geo h, apartIn_of_perm geo h]

/-- Witness for C3 (amended): a non-canonical pair order on the concrete
three-fighter store gives the same `waiting` flag for entity 1 as the
canonical order. -/
theorem collision_waiting_order_independent_witness :
    ([((0:Nat), (2:Nat)), (0, 1), (1, 2)].Perm (selfPairs [0, 1, 2]))
    ∧ (runCollision geoTriple [(0, 2), (0, 1), (1, 2)] fightersInit 1).waiting
        = (collision_system geoTriple [0, 1, 2] fightersInit 1).waiting :=
  ⟨by decide,
   collision_waiting_order_independent geoTriple [0, 1, 2] fightersInit
     [(0, 2), (0, 1), (1, 2)] (by decide) 1⟩

/-- C3 counterexample.  The final `fighting` references do depend on the
pair-visitation order: on the three-fighter store where entity 0 overlaps
the opposing entities 1 and 2, the canonical order `[(0,1), (0,2), (1,2)]`
leaves entity 0 fighting entity 2, while the permuted order
`[(0,2), (0,1), (1,2)]` leaves it fighting entity 1 — each visited pair
overwrites the `fighting` link, so the last-visited opponent wins. -/
theorem collision_fighting_order_dependent_cex :
    ([((0:Nat), (2:Nat)), (0, 1), (1, 2)].Perm (selfPairs [0, 1, 2]))
    ∧ (runCollision geoTriple (selfPairs [0, 1, 2]) fightersInit 0).fighting = some 2
    ∧ (runCollision geoTriple [(0, 2), (0, 1), (1, 2)] fightersInit 0).fighting = some 1 := by
  refine ⟨by decide, ?_, ?_⟩ <;>
    norm_num [runCollision, applyWaiting, pairStep, pairCollide, collide, overlapTest,
      geoTriple, fightersInit, upd, orInsertFalse, Fighter.new, selfPairs]

theorem overlapTest_symm (aP aS bP bS : ℚ × ℚ) :
    overlapTest aP aS bP bS ↔ overlapTest bP bS aP aS := by
  unfold overlapTest
  constructor <;> rintro ⟨h1, h2, h3, h4⟩ <;> exact ⟨h2, h1, h4, h3⟩

theorem pairCollide_isSome_symm (geo : Nat → Geo) (a b : Nat) :
    (pairCollide geo (a, b)).isSome = (pairCollide geo (b, a)).isSome := by
  unfold pairCollide collide
  by_cases h : overlapTest (geo a).pos (geo a).size (geo b).pos (geo b).size
  · rw [if_pos h, if_pos ((overlapTest_symm _ _ _ _).mp h)]
    rfl
  · rw [if_neg h, if_neg (fun h2 => h ((overlapTest_symm _ _ _ _).mpr h2))]

theorem oppPair_symm (geo : Nat → Geo) (a b : Nat) :
    oppPair geo (a, b) = oppPair geo (b, a) := by
  unfold oppPair
  rw [pairCollide_isSome_symm]
  congr 1
  congr 1
  rw [decide_eq_decide]
  exact eq_comm

/-- Entities `x` and `y` overlap with differing `scale.x`, in either
pair orientation. -/
def oppAdj (geo : Nat → Geo) (x y : Nat) : Prop :=
  oppPair geo (x, y) = true ∨ oppPair geo (y, x) = true

theorem selfPairs_mem_ids (ids : List Nat) (p : Nat × Nat) (hp : p ∈ selfPairs ids) :
    p.1 ∈ ids ∧ p.2 ∈ ids := by
  induction ids with
  | nil => simp [selfPairs] at hp
  | cons x xs ih =>
    simp only [selfPairs, List.mem_append, List.mem_map] at hp
    rcases hp with ⟨y, hy, hyp⟩ | hp
    · rw [← hyp]
      exact ⟨List.mem_cons_self x xs, List.mem_cons_of_mem x hy⟩
    · obtain ⟨h1, h2⟩ := ih hp
      exact ⟨List.mem_cons_of_mem x h1, List.mem_cons_of_mem x h2⟩

theorem selfPairs_mem_of_mem (ids : List Nat) (a b : Nat) (ha : a ∈ ids) (hb : b ∈ ids)
    (hab : a ≠ b) : (a, b) ∈ selfPairs ids ∨ (b, a) ∈ selfPairs ids := by
  induction ids with
  | nil => simp at ha
  | cons x xs ih =>
    rcases List.mem_cons.mp ha with rfl | ha2
    · have hb2 : b ∈ xs := by
        rcases List.mem_cons.mp hb with h | h
        · exact absurd h.symm hab
        · exact h
      left
      simp only [selfPairs, List.mem_append, List.mem_map]
      exact Or.inl ⟨b, hb2, rfl⟩
    · rcases List.mem_cons.mp hb with rfl | hb2
      · right
        simp only [selfPairs, List.mem_append, List.mem_map]
        exact Or.inl ⟨a, ha2, rfl⟩
      · rcases ih ha2 hb2 with h | h
        · left
          simp only [selfPairs, List.mem_append]
          exact Or.inr h
        · right
          simp only [selfPairs, List.mem_append]
          exact Or.inr h

theorem fightAfter_stable (geo : Nat → Geo) (ps : List (Nat × Nat)) (e b : Nat)
    (h : ∀ p ∈ ps, oppPair geo p = true → (p.1 = e → p.2 = b) ∧ (p.2 = e → p.1 = b)) :
    fightAfter geo ps e (some b) = some b := by
  induction ps with
  | nil => rfl
  | cons p ps ih =>
    have htail : ∀ q ∈ ps, oppPair geo q = true → (q.1 = e → q.2 = b) ∧ (q.2 = e → q.1 = b) :=
      fun q hq => h q (List.mem_cons_of_mem p hq)
    unfold fightAfter
    by_cases ho : oppPair geo p = true
    · obtain ⟨h1, h2⟩ := h p (List.mem_cons_self p ps) ho
      rw [if_pos ho]
      by_cases hp1 : p.1 = e
      · rw [if_pos hp1, h1 hp1]
        exact ih htail
      · rw [if_neg hp1]
        by_cases hp2 : p.2 = e
        · rw [if_pos hp2, h2 hp2]
          exact ih htail
        · rw [if_neg hp2]
          exact ih htail
    · rw [if_neg ho]
      exact ih htail

theorem fightAfter_of_hit (geo : Nat → Geo) (ps : List (Nat × Nat)) (e b : Nat)
    (d : Option Nat)
    (hex : ∃ p ∈ ps, oppPair geo p = true ∧ (p.1 = e ∨ p.2 = e))
    (hall : ∀ p ∈ ps, oppPair geo p = true → (p.1 = e → p.2 = b) ∧ (p.2 = e → p.1 = b)) :
    fightAfter geo ps e d = some b := by
  revert d hex hall
  induction ps with
  | nil =>
    intro d hex hall
    simp at hex
  | cons p ps ih =>
    intro d hex hall
    have htail : ∀ q ∈ ps, oppPair geo q = true → (q.1 = e → q.2 = b) ∧ (q.2 = e → q.1 = b) :=
      fun q hq => hall q (List.mem_cons_of_mem p hq)
    unfold fightAfter
    by_cases ho : oppPair geo p = true
    · obtain ⟨h1, h2⟩ := hall p (List.mem_cons_self p ps) ho
      rw [if_pos ho]
      by_cases hp1 : p.1 = e
      · rw [if_pos hp1, h1 hp1]
        exact fightAfter_stable geo ps e b htail
      · rw [if_neg hp1]
        by_cases hp2 : p.2 = e
        · rw [if_pos hp2, h2 hp2]
          exact fightAfter_stable geo ps e b htail
        · rw [if_neg hp2]
          refine ih d ?_ htail
          obtain ⟨q, hq, hqo, hqe⟩ := hex
          rcases List.mem_cons.mp hq with rfl | hq2
          · rcases hqe with h | h
            · exact absurd h hp1
            · exact absurd h hp2
          · exact ⟨q, hq2, hqo, hqe⟩
    · rw [if_neg ho]
      refine ih d ?_ htail
      obtain ⟨q, hq, hqo, hqe⟩ := hex
      rcases List.mem_cons.mp hq with rfl | hq2
      · exact absurd hqo ho
      · exact ⟨q, hq2, hqo, hqe⟩

/-- C4 (amended).  After `collision_system` runs, two fighters `a`, `b` that
overlap with differing facings end up mutually engaged — provided neither
overlaps any further opposing-facing fighter in the store.  (Without the
uniqueness proviso the claim fails; see the counterexample.) -/
theorem mutual_engagement_of_unique_opponent (geo : Nat → Geo) (ids : List Nat)
    (f0 : Nat → Fighter) (a b : Nat) (hab : a ≠ b) (ha : a ∈ ids) (hb : b ∈ ids)
    (hopp : oppPair geo (a, b) = true)
    (hua : ∀ c ∈ ids, oppAdj geo a c → c = b)
    (hub : ∀ c ∈ ids, oppAdj geo b c → c = a) :
    (collision_system geo ids f0 a).fighting = some b ∧
    (collision_system geo ids f0 b).fighting = some a := by
  unfold collision_system
  rw [runCollision_fighting, runCollision_fighting]
  constructor
  · apply fightAfter_of_hit
    · rcases selfPairs_mem_of_mem ids a b ha hb hab with h | h
      · exact ⟨(a, b), h, hopp, Or.inl rfl⟩
      · exact ⟨(b, a), h, (oppPair_symm geo a b) ▸ hopp, Or.inr rfl⟩
    · intro p hp hpo
      obtain ⟨hp1, hp2⟩ := selfPairs_mem_ids ids p hp
      have hpo2 : oppPair geo (p.1, p.2) = true := hpo
      constructor
      · intro h1
        exact hua p.2 hp2 (Or.inl (h1 ▸ hpo2))
      · intro h2
        exact hua p.1 hp1 (Or.inr (h2 ▸ hpo2))
  · apply fightAfter_of_hit
    · rcases selfPairs_mem_of_mem ids a b ha hb hab with h | h
      · exact ⟨(a, b), h, hopp, Or.inr rfl⟩
      · exact ⟨(b, a), h, (oppPair_symm geo a b) ▸ hopp, Or.inl rfl⟩
    · intro p hp hpo
      obtain ⟨hp1, hp2⟩ := selfPairs_mem_ids ids p hp
      have hpo2 : oppPair geo (p.1, p.2) = true := hpo
      constructor
      · intro h1
        exact hub p.2 hp2 (Or.inl (h1 ▸ hpo2))
      · intro h2
        exact hub p.1 hp1 (Or.inr (h2 ▸ hpo2))

/-- Two concrete fighters on opposite sides whose 32×32 boxes overlap:
entity 0 at the origin facing right, entity 1 at x = 20 facing left. -/
def geoDuo : Nat → Geo := fun e =>
  if e = 0 then { pos := (0, 0), scaleX := 1, size := (32, 32) }
  else { pos := (20, 0), scaleX := -1, size := (32, 32) }

/-- Witness for C4 (amended): on the two-fighter store the resolver makes
the engagement mutual. -/
theorem mutual_engagement_of_unique_opponent_witness :
    (collision_system geoDuo [0, 1] fightersInit 0).fighting = some 1 ∧
    (collision_system geoDuo [0, 1] fightersInit 1).fighting = some 0 :=
  mutual_engagement_of_unique_opponent geoDuo [0, 1] fightersInit 0 1
    (by decide) (by simp) (by simp)
    (by norm_num [oppPair, pairCollide, collide, overlapTest, geoDuo])
    (by
      intro c hc h
      rcases List.mem_cons.mp hc with rfl | hc2
      · rcases h with h | h <;>
          norm_num [oppPair, pairCollide, collide, overlapTest, geoDuo] at h
      · simpa using hc2)
    (by
      intro c hc h
      rcases List.mem_cons.mp hc with rfl | hc2
      · rfl
      · have hc1 : c = 1 := by simpa using hc2
        subst hc1
        rcases h with h | h <;>
          norm_num [oppPair, pairCollide, collide, overlapTest, geoDuo] at h)

/-- C4 counterexample.  Mutual-engagement symmetry fails when a fighter
overlaps two opposing fighters at once: after `collision_system` on the
three-fighter store, entity 1 has `fighting = some 0`, entity 0 is still
present (no entity is ever removed by this system), yet entity 0's
`fighting` is `some 2`, not `some 1`. -/
theorem mutual_engagement_cex :
    (collision_system geoTriple [0, 1, 2] fightersInit 1).fighting = some 0
    ∧ (collision_system geoTriple [0, 1, 2] fightersInit 0).fighting = some 2
    ∧ (collision_system geoTriple [0, 1, 2] fightersInit 0).fighting ≠ some 1 := by
  refine ⟨?_, ?_, ?_⟩ <;>
    norm_num [collision_system, selfPairs, runCollision, applyWaiting, pairStep,
      pairCollide, collide, overlapTest, geoTriple, fightersInit, upd,
      orInsertFalse, Fighter.new]

/-! ### Combat Resolver (`fighting_system`)

Phase A (`par_iter_mut`) decrements every fighter's cooldown, clamps it at
zero, and sends `(entity, fighting, skills)` into a channel for every ready
fighter with a `fighting` link.  Phase B drains the channel sequentially,
resolving the random contest, mutating hp/money, spawning damage effects,
and issuing deferred despawns.  Randomness is modelled by passing the drawn
values (`Rolls`) explicitly, one record per drained item. -/

/-- The fixed re-arm constant `COOLDOWN`. -/
def COOLDOWN : ℚ := 1

/-- Random draws consumed by one drained work item: `hit` from
`0..=skills.attack`, `guard` from `0..=fought.skills.defence`, and on a hit
`dmg` from `1..=skills.strength` and `red` from `0..=fought.protection`
(`dmg` and `red` are not drawn on a miss and are then ignored). -/
structure Rolls where
  hit : Nat
  guard : Nat
  dmg : Nat
  red : Nat
  deriving DecidableEq, Repr

/-- Phase-B state: the queried store (fighter and transform of each live
entity), the two currency balances, the pending deferred
`despawn_recursive` commands (applied only after the system ends), and the
spawned damage effects (damage number with marker position, each tied to a
`Timeout::new(1.15)`). -/
structure FightState where
  store : Nat → Option (Fighter × Geo)
  moneyLeft : Int
  moneyRight : Int
  pending : List Nat
  effects : List (Nat × (ℚ × ℚ))

/-- Update the fighter component of one store entry in place. -/
def adjustF (store : Nat → Option (Fighter × Geo)) (i : Nat) (g : Fighter → Fighter) :
    Nat → Option (Fighter × Geo) :=
  fun x => if x = i then (store x).map (fun fg => (g fg.1, fg.2)) else store x

/-- Phase A per-fighter update: `attack_cooldown -= delta`, clamp at zero,
and emit the opponent id iff the clamped cooldown reached zero and a
`fighting` link exists. -/
def cooldownTick (delta : ℚ) (f : Fighter) : Fighter × Option Nat :=
  if f.attack_cooldown - delta ≤ 0 then
    ({ f with attack_cooldown := 0 }, f.fighting)
  else
    ({ f with attack_cooldown := f.attack_cooldown - delta }, none)

/-- The store after phase A (entity-local, order-irrelevant). -/
def phaseAstore (delta : ℚ) (store : Nat → Option (Fighter × Geo)) :
    Nat → Option (Fighter × Geo) :=
  fun e => (store e).map fun fg => ((cooldownTick delta fg.1).1, fg.2)

/-- The channel contents after phase A: one `(attacker, opponent, skills)`
item per ready fighter, in store-listing order. -/
def phaseAitems (delta : ℚ) (ids : List Nat) (store : Nat → Option (Fighter × Geo)) :
    List (Nat × Nat × Skills) :=
  ids.filterMap fun e =>
    (store e).bind fun fg =>
      ((cooldownTick delta fg.1).2).map fun o => (e, o, fg.1.skills)

/-- Re-arm the item's sender: `fighter.attack_cooldown += COOLDOWN`. -/
def rearm (st : FightState) (atk : Nat) : FightState :=
  { st with
    store := adjustF st.store atk fun f =>
      { f with attack_cooldown := f.attack_cooldown + COOLDOWN } }

/-- Resolution of one drained work item of phase B.  The defender lookup
succeeds even for a defender already reduced to zero hp earlier this tick,
because despawns are deferred commands. -/
def resolveItem (st : FightState) (item : Nat × Nat × Skills) (r : Rolls) : FightState :=
  match st.store item.2.1 with
  | some fg =>
    if r.hit > r.guard then
      let actual_dmg := r.dmg - r.red
      let fought2 := { fg.1 with hp := fg.1.hp - actual_dmg }
      let st1 : FightState :=
        { st with
          store := adjustF st.store item.2.1 fun _ => fought2,
          effects := (actual_dmg, fg.2.pos) :: st.effects }
      let st2 : FightState :=
        if fought2.hp = 0 then
          if fg.2.scaleX > 0 then
            { st1 with moneyLeft := st1.moneyLeft + 1, pending := item.2.1 :: st1.pending }
          else
            { st1 with moneyRight := st1.moneyRight + 1, pending := item.2.1 :: st1.pending }
        else st1
      rearm st2 item.1
    else rearm st item.1
  | none =>
    rearm { st with store := adjustF st.store item.1 fun f => { f with fighting := none } }
      item.1

/-- Sequential drain of the channel. -/
def phaseB (st : FightState) (irs : List ((Nat × Nat × Skills) × Rolls)) : FightState :=
  irs.foldl (fun s ir => resolveItem s ir.1 ir.2) st

/-- The whole `fighting_system` tick: the parallel cooldown phase followed
by the sequential drain, consuming one `Rolls` record per item. -/
def fighting_system (delta : ℚ) (ids : List Nat) (store : Nat → Option (Fighter × Geo))
    (moneyLeft moneyRight : Int) (rolls : List Rolls) : FightState :=
  phaseB
    { store := phaseAstore delta store, moneyLeft := moneyLeft,
      moneyRight := moneyRight, pending := [], effects := [] }
    ((phaseAitems delta ids store).zip rolls)

/-- A left-side defender (scale.x = 1) at one hp, engaged with entity 0 but
with its own attack on a long cooldown. -/
def defFighterW : Fighter :=
  { Fighter.new Skills.PRIVATE with hp := 1, fighting := some 0, attack_cooldown := 5 }

/-- The defender's transform: facing right, i.e. the left player's side. -/
def defGeoW : Geo := { pos := (0, 0), scaleX := 1, size := (32, 32) }

/-- A right-side attacker (scale.x = -1) engaged with entity 1 and ready to
attack. -/
def atkFighterW : Fighter := { Fighter.new Skills.PRIVATE with fighting := some 1 }

/-- The attacker's transform (flipped sprite: the computer side). -/
def atkGeoW : Geo := { pos := (20, 0), scaleX := -1, size := (32, 32) }

/-- Store holding the attacker as entity 0 and the defender as entity 1. -/
def storeKill : Nat → Option (Fighter × Geo) := fun e =>
  if e = 0 then some (atkFighterW, atkGeoW)
  else if e = 1 then some (defFighterW, defGeoW)
  else none

/-- C1 counterexample.  A right-side attacker kills the left-side defender
(entity 1, `scale.x = 1 > 0`).  The side opposing the defender is the right
side, but the code pattern-matches on the *defender's* transform
(`f_trans.scale.x > 0`) and credits `money.left` — the defender's own side.
The right side receives nothing. -/
theorem kill_bounty_credits_defenders_own_side_cex :
    (fighting_system (1/10) [0, 1] storeKill 0 0 [⟨1, 0, 1, 0⟩]).moneyLeft = 1
    ∧ (fighting_system (1/10) [0, 1] storeKill 0 0 [⟨1, 0, 1, 0⟩]).moneyRight = 0
    ∧ (fighting_system (1/10) [0, 1] storeKill 0 0 [⟨1, 0, 1, 0⟩]).pending = [1]
    ∧ defGeoW.scaleX > 0 := by
  have hitems : phaseAitems (1/10) [0, 1] storeKill = [(0, 1, Skills.PRIVATE)] := by
    norm_num [phaseAitems, cooldownTick, storeKill, atkFighterW, defFighterW, Fighter.new,
      List.filterMap_cons, Option.bind]
  refine ⟨?_, ?_, ?_, by norm_num [defGeoW]⟩ <;>
    · rw [fighting_system, hitems]
      norm_num [phaseB, resolveItem, rearm, adjustF, phaseAstore,
        cooldownTick, storeKill, atkFighterW, defFighterW, atkGeoW, defGeoW,
        Fighter.new, Skills.PRIVATE, COOLDOWN]

/-- C1 (amended).  When a drained work item finds its defender alive, the
hit roll beats the guard roll, and the damage leaves the defender at zero
hp, then exactly one currency unit is credited to the side of the
*defender's own* facing — `money.left` when the defender's `scale.x > 0`,
`money.right` otherwise — and the defender is removed (deferred despawn). -/
theorem kill_credits_defenders_own_side (st : FightState) (item : Nat × Nat × Skills)
    (r : Rolls) (f : Fighter) (g : Geo)
    (hf : st.store item.2.1 = some (f, g))
    (hhit : r.guard < r.hit)
    (hdead : f.hp - (r.dmg - r.red) = 0) :
    (resolveItem st item r).moneyLeft = st.moneyLeft + (if g.scaleX > 0 then 1 else 0)
    ∧ (resolveItem st item r).moneyRight = st.moneyRight + (if g.scaleX > 0 then 0 else 1)
    ∧ (resolveItem st item r).pending = item.2.1 :: st.pending := by
  unfold resolveItem rearm
  simp only [hf]
  by_cases hsc : g.scaleX > 0
  · simp [hhit, hdead, hsc]
  · simp [hhit, hdead, hsc]

/-- Phase-B state used by several witnesses: the kill-scenario store with
empty balances. -/
def fstateKill : FightState :=
  { store := storeKill, moneyLeft := 0, moneyRight := 0, pending := [], effects := [] }

/-- Witness for C1 (amended) on the concrete kill scenario. -/
theorem kill_credits_defenders_own_side_witness :
    (resolveItem fstateKill (0, 1, Skills.PRIVATE) ⟨1, 0, 1, 0⟩).moneyLeft
        = fstateKill.moneyLeft + (if defGeoW.scaleX > 0 then 1 else 0)
    ∧ (resolveItem fstateKill (0, 1, Skills.PRIVATE) ⟨1, 0, 1, 0⟩).moneyRight
        = fstateKill.moneyRight + (if defGeoW.scaleX > 0 then 0 else 1)
    ∧ (resolveItem fstateKill (0, 1, Skills.PRIVATE) ⟨1, 0, 1, 0⟩).pending
        = 1 :: fstateKill.pending :=
  kill_credits_defenders_own_side fstateKill (0, 1, Skills.PRIVATE) ⟨1, 0, 1, 0⟩
    defFighterW defGeoW rfl (by decide) (by decide)

/-- Current cooldown of a stored fighter. -/
def cooldownOf (st : FightState) (e : Nat) : Option ℚ :=
  (st.store e).map fun fg => fg.1.attack_cooldown

theorem cooldownOf_rearm (st : FightState) (atk e : Nat) :
    cooldownOf (rearm st atk) e =
      (if atk = e then (cooldownOf st e).map (· + COOLDOWN) else cooldownOf st e) := by
  unfold rearm cooldownOf adjustF
  by_cases he : e = atk
  · subst he
    rcases hse : st.store e with _ | fg <;> simp [hse]
  · have he2 : ¬ atk = e := fun h => he h.symm
    simp [he, he2]

theorem resolveItem_cooldown (st : FightState) (item : Nat × Nat × Skills) (r : Rolls)
    (e : Nat) :
    cooldownOf (resolveItem st item r) e =
      (if item.1 = e then (cooldownOf st e).map (· + COOLDOWN) else cooldownOf st e) := by
  unfold resolveItem
  rcases hf : st.store item.2.1 with _ | fg
  · have hclear : ∀ x, cooldownOf
        { st with store := adjustF st.store item.1 fun f => { f with fighting := none } } x
          = cooldownOf st x := by
      intro x
      unfold cooldownOf adjustF
      dsimp only
      by_cases hx : x = item.1
      · rw [if_pos hx]
        rcases hse : st.store x with _ | fg2 <;> simp [hse]
      · rw [if_neg hx]
    rw [cooldownOf_rearm]
    by_cases he : item.1 = e
    · rw [if_pos he, if_pos he, hclear]
    · rw [if_neg he, if_neg he, hclear]
  · have hkeep : ∀ (stx : FightState) (v : Nat),
        stx.store = adjustF st.store item.2.1 (fun _ => { fg.1 with hp := v }) →
        cooldownOf stx e = cooldownOf st e := by
      intro stx v hst
      unfold cooldownOf
      rw [hst]
      unfold adjustF
      by_cases hfo : e = item.2.1
      · rw [if_pos hfo, hfo, hf]
        simp
      · rw [if_neg hfo]
    by_cases hhit : r.hit > r.guard
    · simp only [if_pos hhit]
      by_cases hdead : fg.1.hp - (r.dmg - r.red) = 0
      · by_cases hsc : fg.2.scaleX > 0
        · simp only [hdead, if_pos rfl, hsc, if_true]
          rw [cooldownOf_rearm]
          by_cases he : item.1 = e
          · rw [if_pos he, if_pos he, hkeep _ _ rfl]
          · rw [if_neg he, if_neg he, hkeep _ _ rfl]
        · simp only [hdead, if_pos rfl, hsc, if_false]
          rw [cooldownOf_rearm]
          by_cases he : item.1 = e
          · rw [if_pos he, if_pos he, hkeep _ _ rfl]
          · rw [if_neg he, if_neg he, hkeep _ _ rfl]
      · simp only [if_neg hdead]
        rw [cooldownOf_rearm]
        by_cases he : item.1 = e
        · rw [if_pos he, if_pos he, hkeep _ _ rfl]
        · rw [if_neg he, if_neg he, hkeep _ _ rfl]
    · simp only [if_neg hhit]
      rw [cooldownOf_rearm]

theorem phaseB_cooldown (irs : List ((Nat × Nat × Skills) × Rolls)) (st : FightState)
    (e : Nat) :
    cooldownOf (phaseB st irs) e =
      (cooldownOf st e).map
        (· + (irs.countP fun ir => ir.1.1 = e) * COOLDOWN) := by
  induction irs generalizing st with
  | nil =>
    rcases h : cooldownOf st e with _ | q <;> simp [phaseB, h]
  | cons ir irs ih =>
    have hstep := resolveItem_cooldown st ir.1 ir.2 e
    have hrw : phaseB st (ir :: irs) = phaseB (resolveItem st ir.1 ir.2) irs := rfl
    rw [hrw, ih, hstep]
    rcases h : cooldownOf st e with _ | q
    · by_cases hp1 : ir.1.1 = e <;> simp [hp1]
    · by_cases hp1 : ir.1.1 = e
      · rw [if_pos hp1]
        simp only [h, List.countP_cons, Option.map_some']
        rw [Option.some_inj]
        rw [if_pos (by simp [hp1])]
        push_cast
        ring
      · rw [if_neg hp1]
        simp only [h, List.countP_cons, Option.map_some']
        rw [Option.some_inj]
        rw [if_neg (by simp [hp1])]
        push_cast
        ring

theorem countP_filterMap_attacker (ids : List Nat) (F : Nat → Option (Nat × Nat × Skills))
    (a : Nat) (hF : ∀ e it, F e = some it → it.1 = e) (hnd : ids.Nodup) (ha : a ∈ ids)
    (hemit : (F a).isSome = true) :
    (ids.filterMap F).countP (fun it => it.1 = a) = 1 := by
  induction ids with
  | nil => simp at ha
  | cons x xs ih =>
    rw [List.filterMap_cons]
    have hnd2 : xs.Nodup := (List.nodup_cons.mp hnd).2
    have hxnot : x ∉ xs := (List.nodup_cons.mp hnd).1
    rcases List.mem_cons.mp ha with rfl | ha2
    · rcases hFa : F a with _ | it
      · rw [hFa] at hemit
        simp at hemit
      · dsimp only
        rw [List.countP_cons]
        have h1 : it.1 = a := hF a it hFa
        have hzero : (List.filterMap F xs).countP (fun it => decide (it.1 = a)) = 0 := by
          rw [List.countP_eq_zero]
          intro it2 hit2
          obtain ⟨e2, he2, hFe2⟩ := List.mem_filterMap.mp hit2
          have heq : it2.1 = e2 := hF e2 it2 hFe2
          simp only [heq, decide_eq_true_eq]
          intro hcontra
          exact hxnot (hcontra ▸ he2)
        rw [hzero, h1]
        simp
    · have hax : a ≠ x := fun h => hxnot (h ▸ ha2)
      rcases hFx : F x with _ | it
      · dsimp only
        exact ih hnd2 ha2
      · dsimp only
        rw [List.countP_cons]
        have h1 : it.1 = x := hF x it hFx
        rw [ih hnd2 ha2, h1]
        have hxa : ¬ x = a := fun h => hax h.symm
        rw [if_neg (by simp [hxa])]

/-- C5 (amended).  An attacker that is ready this tick (its cooldown, after
the phase-A decrement, is at or below zero) and engaged ends the tick with
`attack_cooldown` equal to exactly `COOLDOWN`: phase A clamps the cooldown
to zero before the item is emitted, so the `+= COOLDOWN` re-arm in phase B
starts from zero and no negative remainder carries forward. -/
theorem rearm_resets_to_cooldown (delta : ℚ) (ids : List Nat)
    (store : Nat → Option (Fighter × Geo)) (ml mr : Int) (rolls : List Rolls)
    (a o : Nat) (f : Fighter) (g : Geo) (hnd : ids.Nodup) (ha : a ∈ ids)
    (hf : store a = some (f, g)) (hready : f.attack_cooldown - delta ≤ 0)
    (hfight : f.fighting = some o)
    (hlen : (phaseAitems delta ids store).length ≤ rolls.length) :
    cooldownOf (fighting_system delta ids store ml mr rolls) a = some COOLDOWN := by
  unfold fighting_system
  rw [phaseB_cooldown]
  have hinit : cooldownOf
      { store := phaseAstore delta store, moneyLeft := ml, moneyRight := mr,
        pending := [], effects := [] } a = some 0 := by
    unfold cooldownOf phaseAstore
    dsimp only
    rw [hf]
    simp only [Option.map_some']
    unfold cooldownTick
    rw [if_pos hready]
  rw [hinit]
  have hcount : (((phaseAitems delta ids store).zip rolls).countP
      fun ir => ir.1.1 = a) = 1 := by
    have hmap : ((phaseAitems delta ids store).zip rolls).map Prod.fst
        = phaseAitems delta ids store := List.map_fst_zip _ _ hlen
    have : (((phaseAitems delta ids store).zip rolls).map Prod.fst).countP
        (fun it => it.1 = a) = 1 := by
      rw [hmap]
      unfold phaseAitems
      refine countP_filterMap_attacker ids _ a ?_ hnd ha ?_
      · intro e it hit
        rcases hse : store e with _ | fg
        · rw [hse] at hit
          simp at hit
        · rw [hse] at hit
          simp only [Option.some_bind] at hit
          rcases hco : (cooldownTick delta fg.1).2 with _ | o2
          · rw [hco] at hit
            simp at hit
          · rw [hco] at hit
            simp only [Option.map_some'] at hit
            rw [← Option.some_inj.mp hit]
      · rw [hf]
        simp only [Option.some_bind]
        unfold cooldownTick
        rw [if_pos hready]
        dsimp only
        rw [hfight]
        rfl
    rw [List.countP_map] at this
    exact this
  rw [hcount]
  norm_num

/-- An attacker whose cooldown (0.5s) is overdue by 0.2s when 0.7s elapse. -/
def overdueFighter : Fighter :=
  { Fighter.new Skills.PRIVATE with fighting := some 1, attack_cooldown := 1/2 }

/-- Store with the overdue attacker as entity 0 and a slow opponent as
entity 1. -/
def storeOverdue : Nat → Option (Fighter × Geo) := fun e =>
  if e = 0 then some (overdueFighter, atkGeoW)
  else if e = 1 then some (defFighterW, defGeoW)
  else none

/-- C5 counterexample.  The attacker enters the tick with cooldown 1/2 and
0.7s elapse, so it is overdue by 0.2s.  The claimed carry-forward would
leave its new cooldown at 1/2 − 7/10 + 1 = 4/5, but phase A clamps the
cooldown to zero before the attack is emitted, so the re-arm lands on
exactly `COOLDOWN = 1`. -/
theorem cooldown_no_carry_cex :
    cooldownOf (fighting_system (7/10) [0, 1] storeOverdue 0 0 [⟨0, 0, 1, 0⟩]) 0 = some 1
    ∧ (1 : ℚ) ≠ 1/2 - 7/10 + 1 := by
  have hitems : phaseAitems (7/10) [0, 1] storeOverdue = [(0, 1, Skills.PRIVATE)] := by
    norm_num [phaseAitems, cooldownTick, storeOverdue, overdueFighter, defFighterW,
      Fighter.new, List.filterMap_cons, Option.bind]
  constructor
  · rw [fighting_system, hitems]
    norm_num [phaseB, resolveItem, rearm, adjustF, phaseAstore, cooldownTick,
      cooldownOf, storeOverdue, overdueFighter, defFighterW, Fighter.new,
      Skills.PRIVATE, COOLDOWN]
  · norm_num

/-- Witness for C5 (amended) at the same concrete overdue attacker. -/
theorem rearm_resets_to_cooldown_witness :
    cooldownOf (fighting_system (7/10) [0, 1] storeOverdue 0 0 [⟨0, 0, 1, 0⟩]) 0
      = some COOLDOWN :=
  rearm_resets_to_cooldown (7/10) [0, 1] storeOverdue 0 0 [⟨0, 0, 1, 0⟩] 0 1
    overdueFighter atkGeoW (by decide) (by simp) rfl (by norm_num [overdueFighter, Fighter.new])
    rfl
    (by
      have hitems : phaseAitems (7/10) [0, 1] storeOverdue = [(0, 1, Skills.PRIVATE)] := by
        norm_num [phaseAitems, cooldownTick, storeOverdue, overdueFighter, defFighterW,
          Fighter.new, List.filterMap_cons, Option.bind]
      rw [hitems]
      simp)

/-- Every stored fighter's current hp is bounded by its template maximum. -/
def hpInv (store : Nat → Option (Fighter × Geo)) : Prop :=
  ∀ e fg, store e = some fg → fg.1.hp ≤ fg.1.skills.hp

theorem hpInv_adjustF (store : Nat → Option (Fighter × Geo)) (i : Nat)
    (g : Fighter → Fighter) (h : hpInv store)
    (hg : ∀ f : Fighter, f.hp ≤ f.skills.hp → (g f).hp ≤ (g f).skills.hp) :
    hpInv (adjustF store i g) := by
  intro e fg hfg
  unfold adjustF at hfg
  by_cases he : e = i
  · rw [if_pos he] at hfg
    rcases hsome : store e with _ | fg0
    · rw [hsome] at hfg
      simp at hfg
    · rw [hsome] at hfg
      simp only [Option.map_some'] at hfg
      rw [← Option.some_inj.mp hfg]
      exact hg fg0.1 (h e fg0 hsome)
  · rw [if_neg he] at hfg
    exact h e fg hfg

theorem resolveItem_hpInv (st : FightState) (item : Nat × Nat × Skills) (r : Rolls)
    (h : hpInv st.store) : hpInv (resolveItem st item r).store := by
  have hrearm : ∀ f : Fighter, f.hp ≤ f.skills.hp →
      ({ f with attack_cooldown := f.attack_cooldown + COOLDOWN } : Fighter).hp
        ≤ ({ f with attack_cooldown := f.attack_cooldown + COOLDOWN } : Fighter).skills.hp :=
    fun f hf => hf
  unfold resolveItem
  rcases hf : st.store item.2.1 with _ | fg
  · dsimp only
    unfold rearm
    dsimp only
    exact hpInv_adjustF _ _ _ (hpInv_adjustF _ _ _ h (fun f hf => hf)) hrearm
  · have hdmg : hpInv (adjustF st.store item.2.1
        (fun _ => { fg.1 with hp := fg.1.hp - (r.dmg - r.red) })) := by
      refine hpInv_adjustF _ _ _ h ?_
      intro f2 hf2
      have hfg : fg.1.hp ≤ fg.1.skills.hp := h item.2.1 fg hf
      calc ({ fg.1 with hp := fg.1.hp - (r.dmg - r.red) } : Fighter).hp
          ≤ fg.1.hp := Nat.sub_le _ _
        _ ≤ fg.1.skills.hp := hfg
    dsimp only
    by_cases hhit : r.hit > r.guard
    · rw [if_pos hhit]
      by_cases hdead : fg.1.hp - (r.dmg - r.red) = 0
      · rw [if_pos hdead]
        by_cases hsc : fg.2.scaleX > 0
        · rw [if_pos hsc]
          unfold rearm
          dsimp only
          exact hpInv_adjustF _ _ _ hdmg hrearm
        · rw [if_neg hsc]
          unfold rearm
          dsimp only
          exact hpInv_adjustF _ _ _ hdmg hrearm
      · rw [if_neg hdead]
        unfold rearm
        dsimp only
        exact hpInv_adjustF _ _ _ hdmg hrearm
    · rw [if_neg hhit]
      unfold rearm
      dsimp only
      exact hpInv_adjustF _ _ _ h hrearm

theorem phaseB_hpInv (irs : List ((Nat × Nat × Skills) × Rolls)) (st : FightState)
    (h : hpInv st.store) : hpInv (phaseB st irs).store := by
  induction irs generalizing st with
  | nil => exact h
  | cons ir irs ih => exact ih _ (resolveItem_hpInv st ir.1 ir.2 h)

theorem phaseAstore_hpInv (delta : ℚ) (store : Nat → Option (Fighter × Geo))
    (h : hpInv store) : hpInv (phaseAstore delta store) := by
  intro e fg hfg
  unfold phaseAstore at hfg
  rcases hsome : store e with _ | fg0
  · rw [hsome] at hfg
    simp at hfg
  · rw [hsome] at hfg
    simp only [Option.map_some'] at hfg
    rw [← Option.some_inj.mp hfg]
    have h0 : fg0.1.hp ≤ fg0.1.skills.hp := h e fg0 hsome
    unfold cooldownTick
    by_cases hc : fg0.1.attack_cooldown - delta ≤ 0
    · rw [if_pos hc]
      exact h0
    · rw [if_neg hc]
      exact h0

/-- C7.  Fighters are created at full health (`Fighter::new` sets
`hp = skills.hp`), damage is `u8::saturating_sub` (truncated `Nat`
subtraction, so hp never wraps below zero, and protection exceeding the raw
damage saturates the damage itself at zero), and a full `fighting_system`
tick preserves `hp ≤ skills.hp` for every stored fighter, for every choice
of elapsed time and random rolls. -/
theorem hp_saturation_invariant (delta : ℚ) (ids : List Nat)
    (store : Nat → Option (Fighter × Geo)) (ml mr : Int) (rolls : List Rolls)
    (h : hpInv store) :
    hpInv (fighting_system delta ids store ml mr rolls).store
    ∧ (∀ s : Skills, (Fighter.new s).hp = s.hp)
    ∧ (∀ (dmg red hp : Nat), red ≥ dmg → hp - (dmg - red) = hp) := by
  refine ⟨?_, fun s => rfl, fun dmg red hp hge => by omega⟩
  unfold fighting_system
  exact phaseB_hpInv _ _ (phaseAstore_hpInv delta store h)

/-- Witness for C7 on the concrete kill-scenario store. -/
theorem hp_saturation_invariant_witness :
    hpInv (fighting_system (1/10) [0, 1] storeKill 0 0 [⟨1, 0, 1, 0⟩]).store
    ∧ (∀ s : Skills, (Fighter.new s).hp = s.hp)
    ∧ (∀ (dmg red hp : Nat), red ≥ dmg → hp - (dmg - red) = hp) :=
  hp_saturation_invariant (1/10) [0, 1] storeKill 0 0 [⟨1, 0, 1, 0⟩]
    (by
      intro e fg hfg
      unfold storeKill at hfg
      by_cases h0 : e = 0
      · rw [if_pos h0] at hfg
        rw [← Option.some_inj.mp hfg]
        decide
      · rw [if_neg h0] at hfg
        by_cases h1 : e = 1
        · rw [if_pos h1] at hfg
          rw [← Option.some_inj.mp hfg]
          decide
        · rw [if_neg h1] at hfg
          exact absurd hfg (by simp))

/-- Skills of the C8 scenario: maximal attack, no defence. -/
def skillsMaxAtk : Skills :=
  { price := 0, attack := 255, defence := 0, strength := 10, hp := 20, speed := 0, siege := 0 }

/-- The lower-hp fighter of the C8 scenario. -/
def lowHpFighter : Fighter := { Fighter.new skillsMaxAtk with hp := 5, fighting := some 0 }

/-- Transform of the lower-hp fighter. -/
def lowHpGeo : Geo := { pos := (20, 0), scaleX := -1, size := (32, 32) }

/-- Two overlapping opposing fighters with `attack = 255, defence = 0`;
entity 1 has the lower hp, both are ready and engaged with each other. -/
def storeMaxAtk : Nat → Option (Fighter × Geo) := fun e =>
  if e = 0 then some ({ Fighter.new skillsMaxAtk with fighting := some 1 },
    { pos := (0, 0), scaleX := 1, size := (32, 32) })
  else if e = 1 then some (lowHpFighter, lowHpGeo)
  else none

/-- C8 counterexample.  `gen_range(0..=attack)` can draw 0, and `0 > 0` is
false, so the attack misses and no damage is dealt: with hit rolls of 0 in
both directions, one full resolution cycle leaves both fighters — including
the lower-hp entity 1 — at unchanged hp.  The claimed "nonzero damage under
every possible outcome" therefore fails at this outcome. -/
theorem guaranteed_damage_cex :
    0 ≤ skillsMaxAtk.attack
    ∧ ((fighting_system (1/10) [0, 1] storeMaxAtk 0 0
        [⟨0, 0, 1, 0⟩, ⟨0, 0, 1, 0⟩]).store 1).map (fun fg => fg.1.hp) = some 5
    ∧ ((fighting_system (1/10) [0, 1] storeMaxAtk 0 0
        [⟨0, 0, 1, 0⟩, ⟨0, 0, 1, 0⟩]).store 0).map (fun fg => fg.1.hp) = some 20 := by
  have hitems : phaseAitems (1/10) [0, 1] storeMaxAtk
      = [(0, 1, skillsMaxAtk), (1, 0, skillsMaxAtk)] := by
    norm_num [phaseAitems, cooldownTick, storeMaxAtk, lowHpFighter, Fighter.new,
      List.filterMap_cons, Option.bind]
  refine ⟨by norm_num [skillsMaxAtk], ?_, ?_⟩ <;>
    · rw [fighting_system, hitems]
      norm_num [phaseB, resolveItem, rearm, adjustF, phaseAstore, cooldownTick,
        storeMaxAtk, lowHpFighter, lowHpGeo, Fighter.new, skillsMaxAtk, COOLDOWN]

/-- C8 (amended).  Against a defender with `defence = 0` and
`protection = 0`, any in-range draws with a *positive* hit roll deal at
least one damage: the guard roll is forced to 0, so `hit > guard` holds,
the damage roll is at least 1 (its range starts at 1), the reduction roll
is forced to 0, and the defender's hp strictly decreases. -/
theorem positive_hit_roll_deals_damage (st : FightState) (item : Nat × Nat × Skills)
    (r : Rolls) (f : Fighter) (g : Geo)
    (hf : st.store item.2.1 = some (f, g))
    (hne : item.1 ≠ item.2.1)
    (hdef : f.skills.defence = 0) (hprot : f.protection = 0)
    (hguard : r.guard ≤ f.skills.defence) (hred : r.red ≤ f.protection)
    (hhit : 0 < r.hit) (hdmg : 1 ≤ r.dmg) (hhp : 0 < f.hp) :
    ((resolveItem st item r).store item.2.1).map (fun fg => fg.1.hp) = some (f.hp - r.dmg)
    ∧ f.hp - r.dmg < f.hp := by
  have hg0 : r.guard = 0 := Nat.le_antisymm (hdef ▸ hguard) (Nat.zero_le _)
  have hr0 : r.red = 0 := Nat.le_antisymm (hprot ▸ hred) (Nat.zero_le _)
  have hlt : f.hp - r.dmg < f.hp := Nat.sub_lt hhp (Nat.lt_of_lt_of_le Nat.zero_lt_one hdmg)
  refine ⟨?_, hlt⟩
  have hne2 : ¬ item.2.1 = item.1 := fun h => hne h.symm
  unfold resolveItem
  simp only [hf]
  rw [if_pos (by omega : r.hit > r.guard)]
  by_cases hdead : f.hp - (r.dmg - r.red) = 0
  · rw [if_pos hdead]
    by_cases hsc : g.scaleX > 0
    · rw [if_pos hsc]
      unfold rearm adjustF
      dsimp only
      rw [if_neg hne2, if_pos rfl, hf]
      simp [hr0]
    · rw [if_neg hsc]
      unfold rearm adjustF
      dsimp only
      rw [if_neg hne2, if_pos rfl, hf]
      simp [hr0]
  · rw [if_neg hdead]
    unfold rearm adjustF
    dsimp only
    rw [if_neg hne2, if_pos rfl, hf]
    simp [hr0]

/-- Phase-B state for the C8 witness. -/
def fstateMaxAtk : FightState :=
  { store := storeMaxAtk, moneyLeft := 0, moneyRight := 0, pending := [], effects := [] }

/-- Witness for C8 (amended): a positive hit roll of 5 with damage roll 3
drops the lower-hp defender from 5 to 2. -/
theorem positive_hit_roll_deals_damage_witness :
    ((resolveItem fstateMaxAtk (0, 1, skillsMaxAtk) ⟨5, 0, 3, 0⟩).store 1).map
        (fun fg => fg.1.hp) = some (lowHpFighter.hp - 3)
    ∧ lowHpFighter.hp - 3 < lowHpFighter.hp :=
  positive_hit_roll_deals_damage fstateMaxAtk (0, 1, skillsMaxAtk) ⟨5, 0, 3, 0⟩
    lowHpFighter lowHpGeo rfl (by decide) (by decide) (by decide) (by decide) (by decide)
    (by decide) (by decide) (by decide)

/-- A right-side attacker engaged with entity 2. -/
def atkOn2 : Fighter := { Fighter.new Skills.PRIVATE with fighting := some 2 }

/-- Store with two ready right-side attackers (entities 0, 1) both engaged
with the single left-side defender (entity 2) at one hp. -/
def storeDouble : Nat → Option (Fighter × Geo) := fun e =>
  if e = 0 then some (atkOn2, atkGeoW)
  else if e = 1 then some (atkOn2, { pos := (40, 0), scaleX := -1, size := (32, 32) })
  else if e = 2 then some (defFighterW, defGeoW)
  else none

/-- C10.  The defender's removal is a deferred command, so after the first
attacker kills entity 2 (hp 1 → 0, one credit, one pending despawn), the
second work item still finds entity 2 in the store, lands its hit on the
already-zero hp, sees `hp <= 0` again, and credits a second currency unit
and a second despawn of the same entity: one death yields two credits in a
single tick. -/
theorem deferred_removal_double_bounty :
    (fighting_system (1/10) [0, 1, 2] storeDouble 0 0
        [⟨1, 0, 1, 0⟩, ⟨1, 0, 1, 0⟩]).moneyLeft = 2
    ∧ (fighting_system (1/10) [0, 1, 2] storeDouble 0 0
        [⟨1, 0, 1, 0⟩, ⟨1, 0, 1, 0⟩]).pending = [2, 2]
    ∧ ((fighting_system (1/10) [0, 1, 2] storeDouble 0 0
        [⟨1, 0, 1, 0⟩, ⟨1, 0, 1, 0⟩]).store 2).map (fun fg => fg.1.hp) = some 0 := by
  have hitems : phaseAitems (1/10) [0, 1, 2] storeDouble
      = [(0, 2, Skills.PRIVATE), (1, 2, Skills.PRIVATE)] := by
    norm_num [phaseAitems, cooldownTick, storeDouble, atkOn2, defFighterW, Fighter.new,
      List.filterMap_cons, Option.bind]
  refine ⟨?_, ?_, ?_⟩ <;>
    · rw [fighting_system, hitems]
      norm_num [phaseB, resolveItem, rearm, adjustF, phaseAstore, cooldownTick,
        storeDouble, atkOn2, defFighterW, atkGeoW, defGeoW, Fighter.new,
        Skills.PRIVATE, COOLDOWN]

/-! ### Economy & Spawner (`soldier_placement_system`)

The manual path checks the cursor-in-zone condition and `money.left >= 1`
*once*, then deducts the price of every just-pressed button.  The
autonomous path decrements the spawn timer unconditionally and then loops
`while timer < 0 && money.right >= 1`, each iteration picking a random
preset and lane, deducting its price, and advancing the timer by
`1 / max(money.right / 7, 1)`.  Randomness is modelled by a finite stream
of picks; the loop stops early if the stream runs out, which only shortens
executions (every terminating run is covered by a long enough stream). -/

/-- The `SPAWN_WIDTH` constant. -/
def SPAWN_WIDTH : ℚ := 64

/-- Random preset pick of the autonomous spawner
(`[FIGHTER, PRIVATE, SHIELDSMAN].choose`). -/
inductive PresetPick
  | fighterPick
  | privatePick
  | shieldsmanPick
  deriving DecidableEq, Repr

/-- Skills of a preset pick. -/
def PresetPick.skills : PresetPick → Skills
  | .fighterPick => Skills.FIGHTER
  | .privatePick => Skills.PRIVATE
  | .shieldsmanPick => Skills.SHIELDSMAN

/-- Economy/spawner state: the `Money` resource and the mutable spawn-zone
timer. -/
structure EconState where
  moneyLeft : Int
  moneyRight : Int
  timer : ℚ
  deriving DecidableEq, Repr

/-- The manual (player) spawn path of one tick.  `get_just_pressed` yields
each pressed button at most once, so the three relevant buttons are three
flags; other buttons hit the `_ => continue` arm and are omitted. -/
def manual_spawn_tick (inZone pressLeft pressMiddle pressRight : Bool) (moneyLeft : Int) :
    Int × List Skills :=
  if inZone = true ∧ moneyLeft ≥ 1 then
    let s1 : Int × List Skills :=
      if pressLeft = true then (moneyLeft - (Skills.FIGHTER.price : Int), [Skills.FIGHTER])
      else (moneyLeft, [])
    let s2 : Int × List Skills :=
      if pressMiddle = true then (s1.1 - (Skills.PRIVATE.price : Int), s1.2 ++ [Skills.PRIVATE])
      else s1
    let s3 : Int × List Skills :=
      if pressRight = true then (s2.1 - (Skills.SHIELDSMAN.price : Int), s2.2 ++ [Skills.SHIELDSMAN])
      else s2
    s3
  else (moneyLeft, [])

/-- The autonomous spawn loop, one stream element consumed per iteration.
Returns the new right balance, the new timer, and the spawned presets. -/
def auto_spawn_loop : Int → ℚ → List (PresetPick × ℚ) → Int × ℚ × List Skills
  | mr, timer, [] => (mr, timer, [])
  | mr, timer, (pick, _y) :: rest =>
    if timer < 0 ∧ mr ≥ 1 then
      let denominator : ℚ := ((max (mr / 7) 1 : Int) : ℚ)
      let res := auto_spawn_loop (mr - (pick.skills.price : Int)) (timer + 1 / denominator) rest
      (res.1, res.2.1, pick.skills :: res.2.2)
    else (mr, timer, [])

/-- One `soldier_placement_system` tick: the manual path, the unconditional
`timer -= delta`, and the autonomous loop.  Returns the new state, the
manually spawned presets (left side) and the autonomously spawned presets
(right side). -/
def soldier_placement_system (st : EconState) (inZone pL pM pR : Bool) (delta : ℚ)
    (picks : List (PresetPick × ℚ)) : EconState × List Skills × List Skills :=
  let manual := manual_spawn_tick inZone pL pM pR st.moneyLeft
  let auto := auto_spawn_loop st.moneyRight (st.timer - delta) picks
  ({ moneyLeft := manual.1, moneyRight := auto.1, timer := auto.2.1 },
   manual.2, auto.2.2)

/-- One economy-affecting event: a placement tick, a left-side credit
(siege `money.left += siege` or kill bounty `+= 1`), or the corresponding
right-side credit.  Credit amounts are `u8` casts, hence nonnegative. -/
inductive EconEvent
  | place (inZone pL pM pR : Bool) (delta : ℚ) (picks : List (PresetPick × ℚ))
  | creditLeft (amt : Nat)
  | creditRight (amt : Nat)

/-- Effect of one event on the economy state. -/
def econStep (st : EconState) : EconEvent → EconState
  | .place inZone pL pM pR delta picks =>
    (soldier_placement_system st inZone pL pM pR delta picks).1
  | .creditLeft amt => { st with moneyLeft := st.moneyLeft + amt }
  | .creditRight amt => { st with moneyRight := st.moneyRight + amt }

/-- Initial economy state from `setup`: `Money { left: 30, right: 25 }` and
`SpawnZone { timer: 1., .. }`. -/
def econInit : EconState := { moneyLeft := 30, moneyRight := 25, timer := 1 }

/-- Run a sequence of events from the initial state. -/
def runEcon (events : List EconEvent) : EconState := events.foldl econStep econInit

/-- C2 counterexample.  The manual gate is `money.left >= 1`, checked once
per tick regardless of price; each pressed button then deducts its full
price.  Pressing all three buttons (prices 3 + 2 + 3 = 8) on four
consecutive ticks from the initial balance 30 passes the gate each time
(30, 22, 14, 6 are all ≥ 1) and ends at 6 − 8 = −2 < 0: a reachable
negative balance. -/
theorem balance_goes_negative_cex :
    (runEcon [EconEvent.place true true true true 0 [],
              EconEvent.place true true true true 0 [],
              EconEvent.place true true true true 0 [],
              EconEvent.place true true true true 0 []]).moneyLeft = -2
    ∧ (-2 : Int) < 0 := by
  refine ⟨?_, by norm_num⟩
  norm_num [runEcon, econStep, soldier_placement_system, manual_spawn_tick,
    auto_spawn_loop, econInit, Skills.FIGHTER, Skills.PRIVATE, Skills.SHIELDSMAN]

/-- C2 (amended).  Spawns are gated only by `balance >= 1`, never by the
price of the preset about to be bought, so balances *can* go negative; they
are nevertheless bounded below across every event sequence from the initial
state: the left balance never drops below 1 − (3+2+3) = −7 (one gate check
covers up to three button deductions) and the right balance never drops
below 1 − 3 = −2 (the loop re-checks the gate before each deduction). -/
theorem balances_bounded_below (events : List EconEvent) :
    (runEcon events).moneyLeft ≥ -7 ∧ (runEcon events).moneyRight ≥ -2 := by
  have hpick : ∀ p : PresetPick, (p.skills.price : Int) ≤ 3 := by
    intro p
    cases p <;> decide
  have hauto : ∀ (picks : List (PresetPick × ℚ)) (mr : Int) (t : ℚ), mr ≥ -2 →
      (auto_spawn_loop mr t picks).1 ≥ -2 := by
    intro picks
    induction picks with
    | nil =>
      intro mr t h
      exact h
    | cons p rest ih =>
      intro mr t h
      unfold auto_spawn_loop
      by_cases hc : t < 0 ∧ mr ≥ 1
      · rw [if_pos hc]
        refine ih _ _ ?_
        have := hpick p.1
        have := hc.2
        omega
      · rw [if_neg hc]
        exact h
  have hmanual : ∀ (iz l m r : Bool) (ml : Int), ml ≥ -7 →
      (manual_spawn_tick iz l m r ml).1 ≥ -7 := by
    intro iz l m r ml h
    unfold manual_spawn_tick
    by_cases hc : iz = true ∧ ml ≥ 1
    · rw [if_pos hc]
      obtain ⟨hiz, hml⟩ := hc
      cases l <;> cases m <;> cases r <;>
        simp [Skills.FIGHTER, Skills.PRIVATE, Skills.SHIELDSMAN] <;> omega
    · rw [if_neg hc]
      exact h
  have hstep : ∀ st ev, (st.moneyLeft ≥ -7 ∧ st.moneyRight ≥ -2) →
      ((econStep st ev).moneyLeft ≥ -7 ∧ (econStep st ev).moneyRight ≥ -2) := by
    intro st ev h
    obtain ⟨h1, h2⟩ := h
    cases ev with
    | place iz l m r delta picks =>
      unfold econStep soldier_placement_system
      exact ⟨hmanual iz l m r st.moneyLeft h1, hauto picks st.moneyRight _ h2⟩
    | creditLeft amt =>
      unfold econStep
      dsimp only
      refine ⟨?_, h2⟩
      have : (0 : Int) ≤ (amt : Int) := Int.natCast_nonneg amt
      omega
    | creditRight amt =>
      unfold econStep
      dsimp only
      refine ⟨h1, ?_⟩
      have : (0 : Int) ≤ (amt : Int) := Int.natCast_nonneg amt
      omega
  suffices h : ∀ (evs : List EconEvent) (st : EconState),
      st.moneyLeft ≥ -7 ∧ st.moneyRight ≥ -2 →
      (evs.foldl econStep st).moneyLeft ≥ -7 ∧ (evs.foldl econStep st).moneyRight ≥ -2 by
    exact h events econInit (by norm_num [econInit])
  intro evs
  induction evs with
  | nil =>
    intro st h
    exact h
  | cons e rest ih =>
    intro st h
    exact ih _ (hstep st e h)

theorem auto_spawn_loop_no_funds (mr : Int) (t : ℚ) (picks : List (PresetPick × ℚ))
    (h : mr < 1) : auto_spawn_loop mr t picks = (mr, t, []) := by
  cases picks with
  | nil => rfl
  | cons p rest =>
    unfold auto_spawn_loop
    rw [if_neg (fun hc => absurd hc.2 (by omega))]

/-- C6 (amended).  With insufficient funds (`money.right < 1`, failing the
`>= 1` gate) the autonomous path spawns nothing and leaves the balance
untouched, but the timer is *not* clamped: it is simply decremented by the
elapsed time and keeps accumulating negative time tick after tick until
funds return (at which point the loop can spawn several fighters in one
tick to catch up). -/
theorem insufficient_funds_no_spawn (st : EconState) (inZone pL pM pR : Bool)
    (delta : ℚ) (picks : List (PresetPick × ℚ)) (h : st.moneyRight < 1) :
    (soldier_placement_system st inZone pL pM pR delta picks).1.timer = st.timer - delta
    ∧ (soldier_placement_system st inZone pL pM pR delta picks).2.2 = []
    ∧ (soldier_placement_system st inZone pL pM pR delta picks).1.moneyRight
        = st.moneyRight := by
  unfold soldier_placement_system
  rw [auto_spawn_loop_no_funds _ _ _ h]
  exact ⟨rfl, rfl, rfl⟩

/-- C6 counterexample.  With `money.right = 0` and the timer already
negative at −1/2, a tick of one elapsed second spawns nothing — but the
timer advances further below zero to −3/2 instead of being clamped. -/
theorem spawn_timer_not_clamped_cex :
    (soldier_placement_system { moneyLeft := 0, moneyRight := 0, timer := -1/2 }
        false false false false 1 [(PresetPick.fighterPick, 0)]).1.timer = -3/2
    ∧ ((-3/2 : ℚ) < -1/2)
    ∧ (soldier_placement_system { moneyLeft := 0, moneyRight := 0, timer := -1/2 }
        false false false false 1 [(PresetPick.fighterPick, 0)]).2.2 = [] := by
  refine ⟨?_, by norm_num, ?_⟩ <;>
    norm_num [soldier_placement_system, manual_spawn_tick, auto_spawn_loop]

/-- Witness for C6 (amended) at the concrete broke-spawner state. -/
theorem insufficient_funds_no_spawn_witness :
    (soldier_placement_system { moneyLeft := 0, moneyRight := 0, timer := -1/2 }
        false false false false 1 [(PresetPick.fighterPick, 0)]).1.timer = (-1/2 : ℚ) - 1
    ∧ (soldier_placement_system { moneyLeft := 0, moneyRight := 0, timer := -1/2 }
        false false false false 1 [(PresetPick.fighterPick, 0)]).2.2 = []
    ∧ (soldier_placement_system { moneyLeft := 0, moneyRight := 0, timer := -1/2 }
        false false false false 1 [(PresetPick.fighterPick, 0)]).1.moneyRight = 0 :=
  insufficient_funds_no_spawn { moneyLeft := 0, moneyRight := 0, timer := -1/2 }
    false false false false 1 [(PresetPick.fighterPick, 0)] (by decide)

/-! ### Timeout / Lifecycle GC (`timeout_system`) -/

/-- The `Timeout` component: a countdown and the entities to delete with
it. -/
structure Timeout where
  time_left : ℚ
  tied_to : List Nat
  deriving DecidableEq, Repr

/-- One `timeout_system` tick over the stored `(Entity, Timeout)` pairs:
every `time_left` is decremented by the elapsed time, and each entity whose
decremented countdown is ≤ 0 is despawned together with every entity in its
`tied_to` list (deferred commands issued in the same tick).  Returns the
updated components and the despawn list. -/
def timeout_system (delta : ℚ) (touts : List (Nat × Timeout)) :
    List (Nat × Timeout) × List Nat :=
  (touts.map fun it => (it.1, { it.2 with time_left := it.2.time_left - delta }),
   touts.foldr (fun it acc =>
     if it.2.time_left - delta ≤ 0 then it.1 :: (it.2.tied_to ++ acc) else acc) [])

theorem timeout_removed_iff (delta : ℚ) (touts : List (Nat × Timeout)) (x : Nat) :
    x ∈ (timeout_system delta touts).2 ↔
      ∃ it ∈ touts, it.2.time_left - delta ≤ 0 ∧ (x = it.1 ∨ x ∈ it.2.tied_to) := by
  unfold timeout_system
  induction touts with
  | nil => simp
  | cons it rest ih =>
    rw [List.foldr_cons]
    by_cases hc : it.2.time_left - delta ≤ 0
    · rw [if_pos hc]
      constructor
      · intro hx
        rcases List.mem_cons.mp hx with rfl | hx2
        · exact ⟨it, List.mem_cons_self it rest, hc, Or.inl rfl⟩
        · rcases List.mem_append.mp hx2 with hx3 | hx3
          · exact ⟨it, List.mem_cons_self it rest, hc, Or.inr hx3⟩
          · obtain ⟨jt, hjt, hjc, hjx⟩ := ih.mp hx3
            exact ⟨jt, List.mem_cons_of_mem it hjt, hjc, hjx⟩
      · rintro ⟨jt, hjt, hjc, hjx⟩
        rcases List.mem_cons.mp hjt with rfl | hjt2
        · rcases hjx with rfl | hjx2
          · exact List.mem_cons_self _ _
          · exact List.mem_cons_of_mem _ (List.mem_append.mpr (Or.inl hjx2))
        · exact List.mem_cons_of_mem _
            (List.mem_append.mpr (Or.inr (ih.mpr ⟨jt, hjt2, hjc, hjx⟩)))
    · rw [if_neg hc]
      constructor
      · intro hx
        obtain ⟨jt, hjt, hjc, hjx⟩ := ih.mp hx
        exact ⟨jt, List.mem_cons_of_mem it hjt, hjc, hjx⟩
      · rintro ⟨jt, hjt, hjc, hjx⟩
        rcases List.mem_cons.mp hjt with rfl | hjt2
        · exact absurd hjc hc
        · exact ih.mpr ⟨jt, hjt2, hjc, hjx⟩

/-- C9.  For every stored Timeout: its countdown is decremented by the
elapsed time this tick; in the tick where the decremented countdown reaches
≤ 0, the timeout entity and every entity in its `tied_to` list are
despawned together (same tick); while the countdown is still positive,
neither the timeout entity nor any of its tied entities is despawned —
provided no *other* expiring timeout lists any of them, which holds in the
program because each Timeout is spawned with a freshly created text entity
as its only tied dependant. -/
theorem timeout_lifecycle (delta : ℚ) (touts : List (Nat × Timeout)) (i : Nat)
    (t : Timeout) (hmem : (i, t) ∈ touts) :
    ((i, { t with time_left := t.time_left - delta }) ∈ (timeout_system delta touts).1)
    ∧ (t.time_left - delta ≤ 0 →
        i ∈ (timeout_system delta touts).2
        ∧ ∀ x ∈ t.tied_to, x ∈ (timeout_system delta touts).2)
    ∧ (0 < t.time_left - delta →
        (∀ jt ∈ touts, jt.2.time_left - delta ≤ 0 →
          (i ≠ jt.1 ∧ i ∉ jt.2.tied_to)
          ∧ ∀ x ∈ t.tied_to, x ≠ jt.1 ∧ x ∉ jt.2.tied_to) →
        i ∉ (timeout_system delta touts).2
        ∧ ∀ x ∈ t.tied_to, x ∉ (timeout_system delta touts).2) := by
  refine ⟨?_, ?_, ?_⟩
  · have : (i, { t with time_left := t.time_left - delta })
        = (fun it : Nat × Timeout => (it.1, { it.2 with time_left := it.2.time_left - delta }))
            (i, t) := rfl
    rw [this]
    exact List.mem_map_of_mem _ hmem
  · intro hexp
    constructor
    · exact (timeout_removed_iff delta touts i).mpr ⟨(i, t), hmem, hexp, Or.inl rfl⟩
    · intro x hx
      exact (timeout_removed_iff delta touts x).mpr ⟨(i, t), hmem, hexp, Or.inr hx⟩
  · intro hpos hothers
    constructor
    · intro hin
      obtain ⟨jt, hjt, hjc, hjx⟩ := (timeout_removed_iff delta touts i).mp hin
      obtain ⟨hne, hnot⟩ := (hothers jt hjt hjc).1
      rcases hjx with h | h
      · exact hne h
      · exact hnot h
    · intro x hx hin
      obtain ⟨jt, hjt, hjc, hjx⟩ := (timeout_removed_iff delta touts x).mp hin
      obtain ⟨hne, hnot⟩ := (hothers jt hjt hjc).2 x hx
      rcases hjx with h | h
      · exact hne h
      · exact hnot h

/-- Witness for C9: a single timeout at 2s tied to entity 7, after 1s:
entry present with countdown 1, and neither the timeout entity nor the
tied entity is despawned. -/
theorem timeout_lifecycle_witness :
    ((5, ({ time_left := (2 : ℚ) - 1, tied_to := [7] } : Timeout))
        ∈ (timeout_system 1 [(5, ⟨2, [7]⟩)]).1)
    ∧ ((2 : ℚ) - 1 ≤ 0 →
        5 ∈ (timeout_system 1 [(5, ⟨2, [7]⟩)]).2
        ∧ ∀ x ∈ [7], x ∈ (timeout_system 1 [(5, (⟨2, [7]⟩ : Timeout))]).2)
    ∧ (0 < (2 : ℚ) - 1 →
        (∀ jt ∈ [((5 : Nat), (⟨2, [7]⟩ : Timeout))],
          jt.2.time_left - 1 ≤ 0 →
          ((5 ≠ jt.1 ∧ 5 ∉ jt.2.tied_to)
            ∧ ∀ x ∈ [7], x ≠ jt.1 ∧ x ∉ jt.2.tied_to)) →
        5 ∉ (timeout_system 1 [(5, ⟨2, [7]⟩)]).2
        ∧ ∀ x ∈ [7], x ∉ (timeout_system 1 [(5, (⟨2, [7]⟩ : Timeout))]).2) :=
  timeout_lifecycle 1 [(5, ⟨2, [7]⟩)] 5 ⟨2, [7]⟩ (by simp)

end Sidewars
